import Mathlib

/-!
Shallow embedding of the text-measurement drawer (`painter` package,
`src/unnamed/part_000`) and of the monospaced text-grid widget
(`src/widget/textgrid.go`) of the repository, together with theorems
settling the specification claims about them.

Conventions of the embedding:
* Go strings are `List Char` (a Go `range` over a string yields runes).
* `fixed.Int26_6` fixed-point quantities are modelled as unbounded `Int`
  (the claims are about the traversal/rounding logic, not int32 wrap-around).
* Go's integer division truncates toward zero, which is `Int.tdiv`;
  a Go integer division by zero is a run-time panic, modelled as `none`.
* Fallible code (code that can panic on an out-of-range slice index or a
  zero divisor) returns `Option`; `none` models the panic.
* External collaborators (font face, theme) are modelled as the narrow
  interfaces the source consumes: a font face is a pair of functions
  `glyphAdvance`/`kern`, the theme tab-width setting is an `Int` parameter,
  and theme colors are opaque constants of an inductive color type.
-/

namespace Painter

/-- The narrow font-face interface consumed by the drawer:
`GlyphAdvance` returns `(advance, found)`, modelled as `Option Int`;
`Kern` returns the kerning adjustment for a pair of runes.
The drawing entry point `Face.Glyph` reports the same advance and the same
found flag as `GlyphAdvance` for a given rune, so a single field serves both
(the drawing side effect does not influence the pen position). -/
structure Face where
  glyphAdvance : Char → Option Int
  kern : Char → Char → Int

/-- Embedding of `tabStop(f, x)` from the source: if the space glyph is
unavailable, log and return `x` unchanged; otherwise compute
`tabw := spacew * tabWidth` and return `tabw * ((x + tabw) / tabw)` where
`/` is Go's truncating integer division (`Int.tdiv`).  The intermediate
`math.Modf(float64((x+tabw)/tabw))` keeps exactly the integer quotient,
since the division already happened on integers.  A zero `tabw` makes the
Go division panic: modelled as `none`.  `n` models the theme tab-width
setting `Theme().Size(theme.SizeNameTabWidth)`. -/
def tabStop (f : Face) (n : Int) (x : Int) : Option Int :=
  match f.glyphAdvance ' ' with
  | none => some x
  | some spacew =>
    let tabw := spacew * n
    if tabw = 0 then none
    else some (tabw * Int.tdiv (x + tabw) tabw)

/-- Loop body shared shape of `MeasureString`: walks the string keeping the
previous successfully processed rune (`prevC`, `rune(-1)` sentinel modelled
as `none`) and the accumulated advance.  Kerning with the previous rune is
added *before* the tab / glyph-availability checks, exactly as in the
source; a rune with no glyph is skipped without updating `prevC`. -/
def measureGo (f : Face) (n : Int) : Option Char → Int → List Char → Option Int
  | _, acc, [] => some acc
  | prev, acc, c :: rest =>
    let acc1 := acc + (match prev with | some p => f.kern p c | none => 0)
    if c = '\t' then
      match tabStop f n acc1 with
      | none => none
      | some acc2 => measureGo f n (some c) acc2 rest
    else
      match f.glyphAdvance c with
      | none => measureGo f n prev acc1 rest
      | some a => measureGo f n (some c) (acc1 + a) rest

/-- Embedding of `MeasureString(f, s)`: the pure measurement traversal,
starting with no previous rune and advance 0. -/
def MeasureString (f : Face) (n : Int) (s : List Char) : Option Int :=
  measureGo f n none 0 s

/-- Embedding of the pen movement of `(*Drawer).DrawString(s)`: the same
traversal as `MeasureString` except that the tab stop is computed on the
*absolute* pen position `Dot.X` rather than on the relative advance, and
each resolved glyph is also painted (the paint side effect does not move
the pen, so it is not modelled).  Returns the final pen x-position. -/
def drawGo (f : Face) (n : Int) : Option Char → Int → List Char → Option Int
  | _, pen, [] => some pen
  | prev, pen, c :: rest =>
    let pen1 := pen + (match prev with | some p => f.kern p c | none => 0)
    if c = '\t' then
      match tabStop f n pen1 with
      | none => none
      | some pen2 => drawGo f n (some c) pen2 rest
    else
      match f.glyphAdvance c with
      | none => drawGo f n prev pen1 rest
      | some a => drawGo f n (some c) (pen1 + a) rest

/-- `DrawString` starting from pen x-position `pen`. -/
def DrawString (f : Face) (n : Int) (pen : Int) (s : List Char) : Option Int :=
  drawGo f n none pen s

/-- The characters of `s` whose glyph is available in `f` (the ones that
are actually rendered). -/
def renderedChars (f : Face) (s : List Char) : List Char :=
  s.filter (fun c => (f.glyphAdvance c).isSome)

/-- Sum of the individual glyph advances of the rendered characters. -/
def advSum (f : Face) (s : List Char) : Int :=
  ((renderedChars f s).map (fun c => (f.glyphAdvance c).getD 0)).sum

/-- Kerning summed over consecutive pairs of a character list (the reading
of claim C5: a skipped character takes part in no kerning at all). -/
def kernPairsSum (f : Face) : List Char → Int
  | c1 :: c2 :: rest => f.kern c1 c2 + kernPairsSum f (c2 :: rest)
  | _ => 0

/-- The measurement the words of claim C5 describe for tab-free strings:
advances of the rendered characters plus kerning between consecutive pairs
of the rendered characters only. -/
def specMeasureExcluding (f : Face) (s : List Char) : Int :=
  advSum f s + kernPairsSum f (renderedChars f s)

/-- Kerning as the code actually accumulates it: every character of `s`
(rendered or not) kerns against the last *rendered* character before it
(`prev`), and only a rendered character becomes the new `prev`. -/
def kernSkipSum (f : Face) : Option Char → List Char → Int
  | _, [] => 0
  | prev, c :: rest =>
    (match prev with | some p => f.kern p c | none => 0) +
    kernSkipSum f (if (f.glyphAdvance c).isSome then some c else prev) rest

end Painter

namespace TextGrid

/-- Colors as the widget uses them: the two theme colors it reads, the
transparent default, and arbitrary further colors. -/
inductive GoColor where
  | transparent : GoColor
  | themeText : GoColor
  | themeButton : GoColor
  | rgba : Nat → GoColor
deriving DecidableEq, Repr

/-- `CustomTextGridStyle`: an optional foreground and background color
(`nil` color modelled as `none`).  The `TextGridStyle` interface is
consumed only through `TextColor()`/`BackgroundColor()`, which this
captures. -/
structure Style where
  fg : Option GoColor
  bg : Option GoColor
deriving DecidableEq, Repr

/-- `TextGridStyleDefault = &CustomTextGridStyle{}`. -/
def styleDefault : Style := { fg := none, bg := none }

/-- `TextGridStyleWhitespace = &CustomTextGridStyle{FGColor: theme.ButtonColor()}`. -/
def styleWhitespace : Style := { fg := some GoColor.themeButton, bg := none }

/-- `TextGridCell`: a rune and an optional style (`nil` interface value
modelled as `none`).  The zero rune is the empty sentinel. -/
structure Cell where
  rune : Char
  style : Option Style
deriving DecidableEq, Repr

instance : Inhabited Cell := ⟨{ rune := Char.ofNat 0, style := none }⟩

/-- The widget's `Content` buffer: a ragged list of rows of cells. -/
abbrev Buffer := List (List Cell)

/-- Go slice indexing `b[i]` with an `int` index: panics (`none`) when the
index is negative or not below the length. -/
def idxInt? {α : Type} (b : List α) (i : Int) : Option α :=
  if i < 0 then none else b.get? i.toNat

/-- The integers `lo, lo+1, ..., hi-1` (empty when `hi ≤ lo`); the index
sequence of a Go loop `for col := lo; col < hi; col++`. -/
def intRangeLT (lo hi : Int) : List Int :=
  (List.range (hi - lo).toNat).map (fun k => lo + (k : Int))

/-- The integers `lo, ..., hi`; a Go loop `for col := lo; col <= hi; col++`. -/
def intRangeLE (lo hi : Int) : List Int := intRangeLT lo (hi + 1)

/-- The row-growing loop of `SetRow`/`SetStyle`:
`for len(t.Content) <= row { t.Content = append(t.Content, []TextGridCell{}) }`. -/
def growRowsTo (b : Buffer) (row : Nat) : Buffer :=
  b ++ List.replicate (row + 1 - b.length) []

/-- Embedding of `SetText`: split on newline, turn every rune into a cell
with no style, and replace the whole buffer (the previous content is
ignored).  `strings.Split` on `"\n"`. -/
def splitLines : List Char → List (List Char)
  | [] => [[]]
  | c :: rest =>
    if c = '\n' then [] :: splitLines rest
    else
      match splitLines rest with
      | [] => [[c]]
      | r :: rs => (c :: r) :: rs

/-- `SetText(text)`: the resulting buffer (the widget's old content plays
no part; `t.Content = buffer`). -/
def setText (_old : Buffer) (text : List Char) : Buffer :=
  (splitLines text).map (fun runes => runes.map (fun r => { rune := r, style := none }))

/-- Embedding of `Text()`: concatenate each row's runes and join rows with
a newline between all but the last (`if i < len(t.Content)-1`). -/
def joinLines : List (List Char) → List Char
  | [] => []
  | [r] => r
  | r :: rs => r ++ '\n' :: joinLines rs

/-- `Text()` of a buffer. -/
def text (b : Buffer) : List Char :=
  joinLines (b.map (fun row => row.map (fun cell => cell.rune)))

/-- Embedding of `Row(row)`: empty slice when out of bounds. -/
def rowAt (b : Buffer) (r : Int) : List Cell :=
  if r < 0 || (b.length : Int) ≤ r then [] else b.getD r.toNat []

/-- Embedding of `SetRow(row, content)`: no-op on a negative row, else grow
the buffer to `row+1` rows and replace the row. -/
def setRow (b : Buffer) (row : Int) (content : List Cell) : Buffer :=
  if row < 0 then b
  else (growRowsTo b row.toNat).set row.toNat content

/-- Embedding of `SetStyle(row, col, style)`.  The source grows a *local*
slice `content := t.Content[row]` and writes the style into it, but never
assigns the grown slice back to `t.Content[row]`.  Observable effect
through the buffer: when `col` is inside the row's existing length the
write aliases the row's backing array and is visible; when `col` is beyond
it, the appended cells and the style write live only in the local slice
(later `append`s overwrite any spare capacity with zero cells before
reuse), so the buffer's row is unchanged.  The row-growing loop on
`t.Content` itself does append visible empty rows. -/
def setStyle (b : Buffer) (row col : Int) (s : Style) : Buffer :=
  if row < 0 || col < 0 then b
  else
    let b1 := growRowsTo b row.toNat
    let content := b1.getD row.toNat []
    if col.toNat < content.length then
      b1.set row.toNat
        (content.set col.toNat { content.getD col.toNat default with style := some s })
    else b1

/-- The middle-row loop of `SetStyleRange`:
`for rowNum := startRow+1; rowNum < endRow-1; rowNum++`, where the inner
loop condition evaluates `len(t.Content[rowNum])` — an out-of-range
`rowNum` panics (`none`).  Styles written by the inner loop hit cells with
`0 ≤ col < len(row)`, which never changes any row's length nor the number
of rows, so the re-evaluated bounds equal the ones read up front. -/
def middleLoop (s : Style) (endRow : Int) (rowNum : Int) (b : Buffer) : Option Buffer :=
  if _h : rowNum < endRow - 1 then
    match idxInt? b rowNum with
    | none => none
    | some rowCells =>
      middleLoop s endRow (rowNum + 1)
        ((intRangeLT 0 (rowCells.length : Int)).foldl
          (fun acc col => setStyle acc rowNum col s) b)
  else some b
termination_by (endRow - 1 - rowNum).toNat
decreasing_by
  simp_wf
  omega

/-- Embedding of `SetStyleRange(startRow, startCol, endRow, endCol, style)`.
The equal-rows branch only calls `SetStyle` (total).  Otherwise the
first-row loop's condition evaluates `t.Content[startRow]` even when the
loop body never runs, panicking on an out-of-range `startRow`; likewise the
middle-row loop.  The last-row loop again delegates to `SetStyle`. -/
def setStyleRange (b : Buffer) (startRow startCol endRow endCol : Int) (s : Style) :
    Option Buffer :=
  if startRow = endRow then
    some ((intRangeLE startCol endCol).foldl (fun acc col => setStyle acc startRow col s) b)
  else
    match idxInt? b startRow with
    | none => none
    | some firstRow =>
      let b1 := (intRangeLT startCol (firstRow.length : Int)).foldl
        (fun acc col => setStyle acc startRow col s) b
      match middleLoop s endRow (startRow + 1) b1 with
      | none => none
      | some b2 =>
        some ((intRangeLE 0 endCol).foldl (fun acc col => setStyle acc endRow col s) b2)

/-! ### The renderer (`textGridRender`)

The renderer's `objects` slice always holds a background rectangle and a
text label per logical cell, appended in pairs and addressed as
`objects[pos*2]` / `objects[pos*2+1]`; it is modelled as a list of
`CellObj` pairs, so the Go length is twice the model length. -/

/-- One (background rectangle, text label) primitive pair: the label's
text and color, and the rectangle's fill color. -/
structure CellObj where
  text : Char
  color : GoColor
  fill : GoColor
deriving DecidableEq, Repr

/-- `appendTextCell(' ')`: a fresh pair holds the rune as text with the
theme text color, over a transparent rectangle. -/
def blankCell : CellObj :=
  { text := ' ', color := GoColor.themeText, fill := GoColor.transparent }

/-- Embedding of `setCellRune(str, pos, style)`: writes the rune (the zero
rune renders as a space), the foreground (style's text color when the
style and its color are non-nil, else the theme text color) and the
background (likewise, defaulting to transparent) into pair `pos`.
`objects[pos*2]` panics when the pair index is out of range: `none`. -/
def setCellRune (objs : List CellObj) (pos : Nat) (r : Char) (style : Option Style) :
    Option (List CellObj) :=
  if pos < objs.length then
    let ch := if r = Char.ofNat 0 then ' ' else r
    let fg := match style with
      | some st => match st.fg with | some c => c | none => GoColor.themeText
      | none => GoColor.themeText
    let bg := match style with
      | some st => match st.bg with | some c => c | none => GoColor.transparent
      | none => GoColor.transparent
    some (objs.set pos { text := ch, color := fg, fill := bg })
  else none

/-- Embedding of `ensureGrid()`: if the pool already holds exactly
`cols*rows` pairs, return; otherwise the append loop runs until it does.
When the pool is larger than needed the loop body never runs (the `Nat`
subtraction is 0), so the pool is never truncated. -/
def ensureGrid (cols rows : Nat) (objs : List CellObj) : List CellObj :=
  let cellCount := cols * rows
  if objs.length = cellCount then objs
  else objs ++ List.replicate (cellCount - objs.length) blankCell

/-- `lineCountWidth()` = number of decimal digits of `t.rows + 1`. -/
def lineCountWidth (rows : Nat) : Nat :=
  (Nat.toDigits 10 (rows + 1)).length

/-- Embedding of `updateGridSize(size)`.  Sizes are the `int` pixel fields
of fyne v1 `Size`, modelled as `Nat` (a negative pixel size loses to the
non-negative buffer dimensions in `math.Max` exactly as 0 does).  The
float64 divisions under `math.Floor` are exact integer floor division for
machine-range sizes with a positive cell size, i.e. `Nat` division.
`lineCountWidth` reads `t.rows` *before* it is updated, hence the
`oldRows` argument.  Returns the new `(cols, rows)`. -/
def updateGridSize (content : Buffer) (ws ln : Bool) (oldRows : Nat)
    (size cell : Nat × Nat) : Nat × Nat :=
  let bufRows := content.length
  let bufCols0 := content.foldl (fun m row => max m row.length) 0
  let sizeCols := size.1 / cell.1
  let sizeRows := size.2 / cell.2
  let bufCols1 := if ws then bufCols0 + 1 else bufCols0
  let bufCols2 := if ln then bufCols1 + lineCountWidth oldRows else bufCols1
  (max sizeCols bufCols2, max sizeRows bufRows)

/-- Renderer state: the computed grid dimensions and the primitive pool. -/
structure RenderState where
  cols : Nat
  rows : Nat
  objs : List CellObj
deriving Repr

/-- The state of a freshly created renderer: no primitives, zero grid. -/
def initRenderState : RenderState := { cols := 0, rows := 0, objs := [] }

/-- One reconciliation pass (the dimension/pool part of `Layout`, also run
before every repaint): recompute `cols`/`rows` from the buffer and the
available size, then `ensureGrid`.  A bare `Refresh()` re-runs
`ensureGrid` with unchanged `cols`/`rows`, which never changes the pool
length, so passes of this shape cover every pool-length change. -/
def renderPass (ws ln : Bool) (cell : Nat × Nat) (st : RenderState)
    (input : Buffer × (Nat × Nat)) : RenderState :=
  let dims := updateGridSize input.1 ws ln st.rows input.2 cell
  { cols := dims.1, rows := dims.2, objs := ensureGrid dims.1 dims.2 st.objs }

/-- A sequence of reconciliation passes from the fresh renderer state. -/
def runPasses (ws ln : Bool) (cell : Nat × Nat) (ps : List (Buffer × (Nat × Nat))) :
    RenderState :=
  ps.foldl (renderPass ws ln cell) initRenderState

/-- Writes each character of `chars` at consecutive pair positions starting
at `x`, all with the same style; the flat-index loop shape shared by the
gutter, padding and blank-fill loops of `refreshGrid`. -/
def writeRun : List Char → Option Style → Nat → List CellObj →
    Option (Nat × List CellObj)
  | [], _, x, objs => some (x, objs)
  | c :: cs, st, x, objs =>
    match setCellRune objs x c st with
    | none => none
    | some objs2 => writeRun cs st (x + 1) objs2

/-- The per-row cell loop of `refreshGrid` (`for _, r := range row`).  Once
`i` reaches `cols` the Go loop keeps iterating but every remaining
iteration hits the `continue` and changes nothing, so the traversal stops.
A plain space under whitespace mode becomes the visible space marker `'·'`
in the whitespace style, keeping an explicit background override. -/
def processCells (ws : Bool) (cols : Nat) :
    List Cell → Nat → Nat → List CellObj → Option (Nat × Nat × List CellObj)
  | [], i, x, objs => some (i, x, objs)
  | r :: rest, i, x, objs =>
    if cols ≤ i then some (i, x, objs)
    else
      let written :=
        if ws && r.rune = ' ' then
          match r.style with
          | some st =>
            if st.bg.isSome then
              setCellRune objs x '·' (some { fg := styleWhitespace.fg, bg := st.bg })
            else setCellRune objs x '·' (some styleWhitespace)
          | none => setCellRune objs x '·' (some styleWhitespace)
        else setCellRune objs x r.rune r.style
      match written with
      | none => none
      | some objs2 => processCells ws cols rest (i + 1) (x + 1) objs2

/-- One row of the `refreshGrid` traversal.  With line numbers enabled the
gutter writes the decimal digits of the 1-based line number, pads with
spaces up to `lineCountWidth`, then writes `'|'`, all in the whitespace
style and without any bound check against `cols`.  Then the row's cells,
an optional end-of-line marker, and blank fill up to `cols`. -/
def refreshRow (ln ws : Bool) (cols lcw : Nat) (line : Nat) (notLast : Bool)
    (row : List Cell) (x : Nat) (objs : List CellObj) : Option (Nat × List CellObj) := do
  let (i, x, objs) ←
    if ln then do
      let ds := Nat.toDigits 10 line
      let (x1, o1) ← writeRun ds (some styleWhitespace) x objs
      let pad := lcw - ds.length
      let (x2, o2) ← writeRun (List.replicate pad ' ') (some styleWhitespace) x1 o1
      let (x3, o3) ← writeRun ['|'] (some styleWhitespace) x2 o2
      pure (ds.length + pad + 1, x3, o3)
    else pure (0, x, objs)
  let (i, x, objs) ← processCells ws cols row i x objs
  let (i, x, objs) ←
    if ws && decide (i < cols) && notLast then do
      let (x4, o4) ← writeRun ['↵'] (some styleWhitespace) x objs
      pure (i + 1, x4, o4)
    else pure (i, x, objs)
  let (x5, o5) ← writeRun (List.replicate (cols - i) ' ') (some styleDefault) x objs
  pure (x5, o5)

/-- The row loop of `refreshGrid`: rows at index `≥ rows` are dropped
(`break`); the 1-based line number is `rowIndex + 1`; `notLast` is
`rowIndex < len(t.text.Content)-1`. -/
def refreshRows (ln ws : Bool) (cols rows lcw total : Nat) :
    List (List Cell) → Nat → Nat → List CellObj → Option (Nat × List CellObj)
  | [], _, x, objs => some (x, objs)
  | row :: rest, ri, x, objs =>
    if rows ≤ ri then some (x, objs)
    else
      match refreshRow ln ws cols lcw (ri + 1) (ri + 1 < total) row x objs with
      | none => none
      | some (x2, objs2) => refreshRows ln ws cols rows lcw total rest (ri + 1) x2 objs2

/-- The trailing blank loop of `refreshGrid`:
`for ; x < len(t.objects)/2; x++`.  `setCellRune` keeps the pool length,
so the remaining iteration count is fixed at entry. -/
def blankLoop : Nat → Nat → List CellObj → Option (List CellObj)
  | 0, _, objs => some objs
  | k + 1, x, objs =>
    match setCellRune objs x ' ' (some styleDefault) with
    | none => none
    | some objs2 => blankLoop k (x + 1) objs2

/-- Embedding of `refreshGrid()`: paint every buffer row into the pool in
row-major order, then blank every remaining pair.  `none` models an
index-out-of-range panic in `setCellRune`. -/
def refreshGrid (content : Buffer) (ln ws : Bool) (cols rows : Nat)
    (objs : List CellObj) : Option (List CellObj) :=
  match refreshRows ln ws cols rows (lineCountWidth rows) content.length
      content 0 0 objs with
  | none => none
  | some (x, objs2) => blankLoop (objs2.length - x) x objs2

end TextGrid

/-! ### Concrete faces, buffers and renderer states used by the theorems -/

namespace Painter

/-- A face where only `'a'` has a glyph (advance 10) and the only nonzero
kerning pair is `('a','b')`. -/
def cface5 : Face :=
  { glyphAdvance := fun c => if c = 'a' then some 10 else none,
    kern := fun p c => if p = 'a' && c = 'b' then 5 else 0 }

/-- A face where only the space glyph is available, with advance 64
(one 26.6 pixel), and no kerning. -/
def cface7 : Face :=
  { glyphAdvance := fun c => if c = ' ' then some 64 else none,
    kern := fun _ _ => 0 }

end Painter

namespace TextGrid

/-- A buffer holding the single row `"a"`. -/
def bufA : Buffer := [[{ rune := 'a', style := none }]]

/-- A buffer holding the single row `"ab"`. -/
def bufAB : Buffer := [[{ rune := 'a', style := none }, { rune := 'b', style := none }]]

/-- Ten content rows of one character each: the buffer of the C6 line-number
scenario. -/
def c6content : Buffer := List.replicate 10 [{ rune := 'a', style := none }]

/-- The primitive pool after the C6 scenario's reconciliation settles at
`cols = 3` (gutter width 2 plus separator; the one content column is
clipped), `rows = 10`: 30 blank pairs. -/
def c6pool : List CellObj := List.replicate 30 blankCell

end TextGrid

/-! ## Helper lemmas -/

namespace Painter

/-- Unfolding `advSum` on a character without a glyph. -/
theorem advSum_cons_none {f : Face} {c : Char} (h : f.glyphAdvance c = none)
    (rest : List Char) : advSum f (c :: rest) = advSum f rest := by
  simp [advSum, renderedChars, List.filter_cons, h]

/-- Unfolding `advSum` on a character with a glyph. -/
theorem advSum_cons_some {f : Face} {c : Char} {a : Int} (h : f.glyphAdvance c = some a)
    (rest : List Char) : advSum f (c :: rest) = a + advSum f rest := by
  simp [advSum, renderedChars, List.filter_cons, h]

/-- The measuring loop of the source computes, for tab-free input, the sum
of the rendered advances plus the skip-aware kerning sum. -/
theorem measureGo_eq_sums (f : Face) (n : Int) :
    ∀ (s : List Char), '\t' ∉ s → ∀ (prev : Option Char) (acc : Int),
      measureGo f n prev acc s = some (acc + advSum f s + kernSkipSum f prev s) := by
  intro s
  induction s with
  | nil =>
    intro _ prev acc
    simp [measureGo, advSum, renderedChars, kernSkipSum]
  | cons c rest ih =>
    intro hs prev acc
    have hc : ¬ c = '\t' := fun h => hs (h ▸ List.mem_cons_self c rest)
    have hrest : '\t' ∉ rest := fun h => hs (List.mem_cons_of_mem c h)
    cases hadv : f.glyphAdvance c with
    | none =>
      simp only [measureGo, if_neg hc, hadv]
      rw [ih hrest, advSum_cons_none hadv]
      simp [kernSkipSum, hadv]
      ring
    | some a =>
      simp only [measureGo, if_neg hc, hadv]
      rw [ih hrest, advSum_cons_some hadv]
      simp [kernSkipSum, hadv]
      ring

/-- Dropping the paint side effect, the drawing loop moves the pen exactly
as the measuring loop moves the accumulator (same kerning, same tab stop,
same skip rule). -/
theorem drawGo_eq_measureGo (f : Face) (n : Int) :
    ∀ (s : List Char) (prev : Option Char) (pen : Int),
      drawGo f n prev pen s = measureGo f n prev pen s := by
  intro s
  induction s with
  | nil => intro prev pen; rfl
  | cons c rest ih =>
    intro prev pen
    simp only [drawGo, measureGo]
    by_cases hc : c = '\t'
    · simp only [if_pos hc]
      cases tabStop f n (pen + (match prev with | some p => f.kern p c | none => 0)) with
      | none => rfl
      | some v => exact ih (some c) v
    · simp only [if_neg hc]
      cases f.glyphAdvance c with
      | none => exact ih prev _
      | some a => exact ih (some c) _

end Painter

namespace TextGrid

/-- `splitLines` never returns an empty list of rows. -/
theorem splitLines_ne_nil (s : List Char) : splitLines s ≠ [] := by
  cases s with
  | nil => simp [splitLines]
  | cons c rest =>
    by_cases hc : c = '\n'
    · simp [splitLines, hc]
    · simp only [splitLines, if_neg hc]
      cases splitLines rest <;> simp

/-- Joining the split lines with a newline restores the original string. -/
theorem joinLines_splitLines (s : List Char) : joinLines (splitLines s) = s := by
  induction s with
  | nil => rfl
  | cons c rest ih =>
    by_cases hc : c = '\n'
    · subst hc
      simp only [splitLines, if_pos rfl]
      cases h : splitLines rest with
      | nil => exact absurd h (splitLines_ne_nil rest)
      | cons r rs =>
        rw [h] at ih
        simp [joinLines, ih]
    · simp only [splitLines, if_neg hc]
      cases h : splitLines rest with
      | nil => exact absurd h (splitLines_ne_nil rest)
      | cons r rs =>
        rw [h] at ih
        cases rs with
        | nil => simp_all [joinLines]
        | cons r2 rs2 => simp_all [joinLines]

/-- Every character of every split row is a character of the input. -/
theorem mem_splitLines :
    ∀ (s : List Char) (row : List Char), row ∈ splitLines s →
      ∀ (c : Char), c ∈ row → c ∈ s := by
  intro s
  induction s with
  | nil =>
    intro row hrow c hc
    simp [splitLines] at hrow
    subst hrow
    simp at hc
  | cons d rest ih =>
    intro row hrow c hc
    by_cases hd : d = '\n'
    · simp only [splitLines, if_pos hd, List.mem_cons] at hrow
      rcases hrow with h | h
      · subst h; simp at hc
      · exact List.mem_cons_of_mem d (ih row h c hc)
    · simp only [splitLines, if_neg hd] at hrow
      cases hsp : splitLines rest with
      | nil => exact absurd hsp (splitLines_ne_nil rest)
      | cons r rs =>
        rw [hsp] at hrow
        simp only [List.mem_cons] at hrow
        rcases hrow with h | h
        · subst h
          rcases List.mem_cons.mp hc with h1 | h1
          · exact h1 ▸ List.mem_cons_self d rest
          · have hr : r ∈ splitLines rest := hsp ▸ List.mem_cons_self r rs
            exact List.mem_cons_of_mem d (ih r hr c h1)
        · have hr : row ∈ splitLines rest := hsp ▸ List.mem_cons_of_mem r h
          exact List.mem_cons_of_mem d (ih row hr c hc)

/-- The pool after `ensureGrid` has the larger of its old length and the
required cell count. -/
theorem ensureGrid_length (c r : Nat) (objs : List CellObj) :
    (ensureGrid c r objs).length = max objs.length (c * r) := by
  simp only [ensureGrid]
  split
  next h => omega
  next h =>
    simp only [List.length_append, List.length_replicate]
    omega

/-- Along any pass sequence, a pool at least as large as the current cell
count stays at least as large as the current cell count. -/
theorem foldl_pool_ge (ws ln : Bool) (cell : Nat × Nat) :
    ∀ (ps : List (Buffer × (Nat × Nat))) (st : RenderState),
      st.cols * st.rows ≤ st.objs.length →
      (ps.foldl (renderPass ws ln cell) st).cols * (ps.foldl (renderPass ws ln cell) st).rows
        ≤ (ps.foldl (renderPass ws ln cell) st).objs.length := by
  intro ps
  induction ps with
  | nil => intro st h; exact h
  | cons p rest ih =>
    intro st _h
    simp only [List.foldl_cons]
    apply ih
    simp [renderPass, ensureGrid_length]

end TextGrid

/-! ## Claim theorems -/

/-- Claim C1 (code evaluated at the failing input).  The claim says
`setStyle(row, col, S)` leaves at least `row+1` rows and `col+1` cells in
that row with the cell's style `S`.  On an empty grid, `setStyle(0, 0, S)`
appends the empty row but the column-growing loop works on a local slice
that is never assigned back to `t.Content[row]`, so `Row(0)` stays empty
and the style is unreadable. -/
theorem c1_setStyle_drops_growth :
    TextGrid.setStyle ([] : TextGrid.Buffer) 0 0 TextGrid.styleWhitespace = [[]] ∧
    TextGrid.rowAt (TextGrid.setStyle ([] : TextGrid.Buffer) 0 0 TextGrid.styleWhitespace) 0
      = [] := by decide

/-- Claim C3 (code evaluated at the failing input).  The claim says no
text-grid operation ever fails.  `SetStyleRange(0, 0, 1, 0, S)` on an empty
grid takes the `startRow != endRow` path and its first-row loop condition
evaluates `t.Content[0]`, an index-out-of-range panic. -/
theorem c3_setStyleRange_panics :
    TextGrid.setStyleRange ([] : TextGrid.Buffer) 0 0 1 0 TextGrid.styleWhitespace
      = none := by decide

/-- Claim C4 counterexample: `setStyleRange` with a negative start column
is not a no-op — `SetStyleRange(0, -1, 0, 0, S)` on the one-cell buffer
`["a"]` still styles cell `(0, 0)`, changing the buffer. -/
theorem c4_counterexample :
    TextGrid.setStyleRange TextGrid.bufA 0 (-1) 0 0 TextGrid.styleWhitespace
      ≠ some TextGrid.bufA := by decide

/-- Claim C4 (amended): for `setRow` and `setStyle`, a negative row or
column index makes the call a no-op with the buffer unchanged;
`setStyleRange` is excluded (a negative bound can still style cells at
non-negative indices in the range, or panic when `startRow ≠ endRow`). -/
theorem c4_negative_noop (b : TextGrid.Buffer) (row col : Int)
    (cells : List TextGrid.Cell) (s : TextGrid.Style) :
    (row < 0 → TextGrid.setRow b row cells = b) ∧
    ((row < 0 ∨ col < 0) → TextGrid.setStyle b row col s = b) := by
  constructor
  · intro h
    simp [TextGrid.setRow, h]
  · intro h
    have hb : (decide (row < 0) || decide (col < 0)) = true := by
      rcases h with h | h <;> simp [h]
    simp [TextGrid.setStyle, hb]

/-- Claim C4 witness: the amended statement applied at `setRow(-1)` on the
empty buffer and `setStyle(0, -1)` on `["a"]`. -/
theorem c4_negative_noop_witness :
    TextGrid.setRow ([] : TextGrid.Buffer) (-1) [] = [] ∧
    TextGrid.setStyle TextGrid.bufA 0 (-1) TextGrid.styleWhitespace = TextGrid.bufA :=
  ⟨(c4_negative_noop [] (-1) 0 [] TextGrid.styleWhitespace).1 (by decide),
   (c4_negative_noop TextGrid.bufA 0 (-1) [] TextGrid.styleWhitespace).2
     (Or.inr (by decide))⟩

/-- Claim C5 counterexample: with `kern('a','b') = 5`, advance of `'a'` 10
and no glyph for `'b'`, `MeasureString "ab"` is 15, not the 10 the claim's
"a skipped character contributes no kerning" reading gives — the source
adds the kerning with the previous rune *before* checking glyph
availability. -/
theorem c5_counterexample :
    Painter.MeasureString Painter.cface5 1 ['a', 'b']
      ≠ some (Painter.specMeasureExcluding Painter.cface5 ['a', 'b']) := by decide

/-- Claim C5 (amended): for every face and tab-free string, `MeasureString`
equals the sum of the rendered glyph advances plus the kerning sum in which
every character (rendered or skipped) kerns against the last rendered
character before it, and only rendered characters update that previous
character. -/
theorem c5_measure_skip (f : Painter.Face) (n : Int) (s : List Char) (h : '\t' ∉ s) :
    Painter.MeasureString f n s
      = some (Painter.advSum f s + Painter.kernSkipSum f none s) := by
  have h0 := Painter.measureGo_eq_sums f n s h none 0
  simpa [Painter.MeasureString] using h0

/-- Claim C5 witness: the amended statement evaluated on the face of the
counterexample and the string `"ab"`. -/
theorem c5_measure_skip_witness :
    Painter.MeasureString Painter.cface5 1 ['a', 'b']
      = some (Painter.advSum Painter.cface5 ['a', 'b']
          + Painter.kernSkipSum Painter.cface5 none ['a', 'b']) :=
  c5_measure_skip Painter.cface5 1 ['a', 'b'] (by decide)

/-- Claim C7 counterexample: for the negative pen position `x = -300` with
space advance 64 and tab setting 4 (tab cell width 256), the source's Go
division truncates toward zero and returns 0, not the claimed
`floor((x + 256)/256) * 256 = -256`. -/
theorem c7_counterexample :
    Painter.tabStop Painter.cface7 4 (-300)
      ≠ some ((64 * 4) * Int.fdiv ((-300) + 64 * 4) (64 * 4)) := by decide

/-- Claim C7 (amended): when the space glyph has advance `w` and the tab
cell width `w*n` is positive, `tabStop` returns
`(w*n) * ((x + w*n) / (w*n))` with Go's truncating division — a multiple of
`w*n` strictly greater than `x`, which coincides with the claimed floor
formula whenever `x ≥ 0`; when the space glyph is unavailable it returns
`x` unchanged.  (When `w*n = 0` the source divides by zero instead.) -/
theorem c7_tabStop_next_multiple (f : Painter.Face) (n x w : Int) :
    (f.glyphAdvance ' ' = some w → 0 < w * n →
      Painter.tabStop f n x = some ((w * n) * Int.tdiv (x + w * n) (w * n)) ∧
      (w * n) ∣ (w * n) * Int.tdiv (x + w * n) (w * n) ∧
      x < (w * n) * Int.tdiv (x + w * n) (w * n) ∧
      (0 ≤ x → (w * n) * Int.tdiv (x + w * n) (w * n)
          = (w * n) * Int.fdiv (x + w * n) (w * n))) ∧
    (f.glyphAdvance ' ' = none → Painter.tabStop f n x = some x) := by
  constructor
  · intro hw ht
    have hne : w * n ≠ 0 := ne_of_gt ht
    refine ⟨?_, ⟨Int.tdiv (x + w * n) (w * n), rfl⟩, ?_, ?_⟩
    · simp [Painter.tabStop, hw, hne]
    · have h1 := Int.lt_tdiv_add_one_mul_self (x + w * n) ht
      nlinarith [h1]
    · intro hx
      have h0 : (0 : Int) ≤ x + w * n := by linarith
      rw [Int.tdiv_eq_ediv h0 (le_of_lt ht), Int.fdiv_eq_ediv _ (le_of_lt ht)]
  · intro hw
    simp [Painter.tabStop, hw]

/-- Claim C7 witness: the amended statement at `x = 100`, space advance 64,
tab setting 4: the next stop is `256 > 100`. -/
theorem c7_tabStop_witness :
    Painter.tabStop Painter.cface7 4 100
      = some ((64 * 4) * Int.tdiv (100 + 64 * 4) (64 * 4)) ∧
    (100 : Int) < (64 * 4) * Int.tdiv (100 + 64 * 4) (64 * 4) :=
  ⟨((c7_tabStop_next_multiple Painter.cface7 4 100 64).1 (by decide) (by decide)).1,
   ((c7_tabStop_next_multiple Painter.cface7 4 100 64).1 (by decide) (by decide)).2.2.1⟩

/-- Claim C8 counterexample: on `"\t"` from start pen 100 (tab cell width
256), `DrawString` moves the pen to the absolute stop 256 — an advance of
156 — while `MeasureString` reports 256: the two diverge because the
drawing variant computes tab stops on the absolute pen position. -/
theorem c8_counterexample :
    (Painter.DrawString Painter.cface7 4 100 ['\t']).map (fun r => r - 100)
      ≠ Painter.MeasureString Painter.cface7 4 ['\t'] := by decide

/-- Claim C8 (amended): the drawing traversal's pen advance equals
`MeasureString` for every tab-free string from any start pen, and for every
string (tabs included) when the start pen is 0; with tabs and a nonzero
start pen the two can diverge. -/
theorem c8_draw_matches_measure (f : Painter.Face) (n : Int) (s : List Char) (pen : Int) :
    ('\t' ∉ s → (Painter.DrawString f n pen s).map (fun r => r - pen)
        = Painter.MeasureString f n s) ∧
    Painter.DrawString f n 0 s = Painter.MeasureString f n s := by
  constructor
  · intro h
    rw [Painter.DrawString, Painter.drawGo_eq_measureGo,
      Painter.measureGo_eq_sums f n s h none pen, Painter.MeasureString,
      Painter.measureGo_eq_sums f n s h none 0]
    simp only [Option.map_some', Option.some.injEq]
    ring
  · rw [Painter.DrawString, Painter.drawGo_eq_measureGo]
    rfl

/-- Claim C8 witness: the amended statement on the tab-free string `"ab"`
from start pen 100. -/
theorem c8_draw_matches_measure_witness :
    (Painter.DrawString Painter.cface5 1 100 ['a', 'b']).map (fun r => r - 100)
      = Painter.MeasureString Painter.cface5 1 ['a', 'b'] :=
  (c8_draw_matches_measure Painter.cface5 1 ['a', 'b'] 100).1 (by decide)

/-- Claim C2 counterexample: two reconciliation passes — first over the
buffer `["ab"]` (pool grows to 2 cells, Go length 4), then over the
shrunken buffer `["a"]` (`cols*rows` drops to 1) — leave the pool at Go
length 4, not the claimed exact `2*cols*rows = 2`. -/
theorem c2_counterexample :
    2 * (TextGrid.runPasses false false (1, 1)
        [(TextGrid.bufAB, (0, 0)), (TextGrid.bufA, (0, 0))]).objs.length
      ≠ 2 * ((TextGrid.runPasses false false (1, 1)
          [(TextGrid.bufAB, (0, 0)), (TextGrid.bufA, (0, 0))]).cols
        * (TextGrid.runPasses false false (1, 1)
          [(TextGrid.bufAB, (0, 0)), (TextGrid.bufA, (0, 0))]).rows) := by decide

/-- Claim C2 (amended): after each reconciliation pass the primitive pool's
Go length (twice the pair count) equals the maximum of its previous length
and `2*cols*rows` for the newly computed dimensions — so it never
decreases, and after any sequence of passes it is at least (not exactly)
`2*cols*rows` for the most recently computed `cols, rows`. -/
theorem c2_pool_growth (ws ln : Bool) (cell : Nat × Nat) (st : TextGrid.RenderState)
    (p : TextGrid.Buffer × (Nat × Nat)) (ps : List (TextGrid.Buffer × (Nat × Nat))) :
    2 * (TextGrid.renderPass ws ln cell st p).objs.length
      = max (2 * st.objs.length)
          (2 * ((TextGrid.renderPass ws ln cell st p).cols
            * (TextGrid.renderPass ws ln cell st p).rows)) ∧
    2 * st.objs.length ≤ 2 * (TextGrid.renderPass ws ln cell st p).objs.length ∧
    2 * ((TextGrid.runPasses ws ln cell ps).cols * (TextGrid.runPasses ws ln cell ps).rows)
      ≤ 2 * (TextGrid.runPasses ws ln cell ps).objs.length := by
  refine ⟨?_, ?_, ?_⟩
  · simp [TextGrid.renderPass, TextGrid.ensureGrid_length]
    omega
  · simp [TextGrid.renderPass, TextGrid.ensureGrid_length]
  · have h := TextGrid.foldl_pool_ge ws ln cell ps TextGrid.initRenderState
      (by simp [TextGrid.initRenderState])
    simp only [TextGrid.runPasses]
    omega

/-- Claim C6 counterexample: with line numbers on, 10 content rows,
`cols = 3`, `rows = 10`, the gutter pair slots of buffer row 5 (flat pairs
12 and 13) hold the digit `'5'` then the padding space — the row number is
left-justified (`"5 |"`), not the claimed right-justified `" 5|"`. -/
theorem c6_counterexample :
    (TextGrid.refreshGrid TextGrid.c6content true false 3 10 TextGrid.c6pool).map
        (fun o => ((o.getD 12 TextGrid.blankCell).text, (o.getD 13 TextGrid.blankCell).text))
      ≠ some (' ', '5') := by decide

/-- Claim C6 (amended): with line numbers enabled and 10 content rows the
gutter width is 2 (the decimal digits of `rows + 1 = 11`), and the gutter
of buffer row 5 renders as the glyph sequence of `"5 |"` — digit, padding
space, separator, left-justified — every gutter glyph painted with the
whitespace style (theme button foreground over a transparent background). -/
theorem c6_gutter_scenario :
    TextGrid.lineCountWidth 10 = 2 ∧
    (TextGrid.refreshGrid TextGrid.c6content true false 3 10 TextGrid.c6pool).map
        (fun o => (o.getD 12 TextGrid.blankCell, o.getD 13 TextGrid.blankCell,
          o.getD 14 TextGrid.blankCell))
      = some
        ({ text := '5', color := TextGrid.GoColor.themeButton,
           fill := TextGrid.GoColor.transparent },
         { text := ' ', color := TextGrid.GoColor.themeButton,
           fill := TextGrid.GoColor.transparent },
         { text := '|', color := TextGrid.GoColor.themeButton,
           fill := TextGrid.GoColor.transparent }) := by decide

/-- Claim C9: `setText(t)` followed by `text()` returns exactly `t` for
every string without carriage returns — splitting on newline and re-joining
with newline reproduces the original string. -/
theorem c9_roundtrip (b : TextGrid.Buffer) (t : List Char) (_h : '\r' ∉ t) :
    TextGrid.text (TextGrid.setText b t) = t := by
  have h2 : ((fun cell : TextGrid.Cell => cell.rune) ∘
      fun r => ({ rune := r, style := none } : TextGrid.Cell)) = fun r => r := rfl
  have h3 : ((fun row : List TextGrid.Cell => row.map (fun cell => cell.rune)) ∘
      fun runes : List Char =>
        runes.map (fun r => ({ rune := r, style := none } : TextGrid.Cell)))
      = fun runes => runes := by
    funext runes
    simp only [Function.comp_apply, List.map_map, h2, List.map_id']
  have h1 : (TextGrid.setText b t).map (fun row => row.map (fun cell => cell.rune))
      = TextGrid.splitLines t := by
    simp only [TextGrid.setText, List.map_map, h3, List.map_id']
  rw [TextGrid.text, h1, TextGrid.joinLines_splitLines]

/-- Claim C9 witness: the round trip on the two-line string `"hi\nx"`. -/
theorem c9_roundtrip_witness :
    TextGrid.text (TextGrid.setText [] ['h', 'i', '\n', 'x']) = ['h', 'i', '\n', 'x'] :=
  c9_roundtrip [] ['h', 'i', '\n', 'x'] (by decide)

/-- Claim C10: `setText(s)` replaces the whole buffer — the result does not
depend on the previous content (so every earlier style is discarded), and
every cell of the new buffer carries no style override and holds a
character of `s`. -/
theorem c10_setText_fresh (b1 b2 : TextGrid.Buffer) (s : List Char)
    (row : List TextGrid.Cell) (cell : TextGrid.Cell)
    (hrow : row ∈ TextGrid.setText b1 s) (hcell : cell ∈ row) :
    cell.style = none ∧ cell.rune ∈ s ∧ TextGrid.setText b1 s = TextGrid.setText b2 s := by
  simp only [TextGrid.setText, List.mem_map] at hrow
  obtain ⟨runes, hr, rfl⟩ := hrow
  simp only [List.mem_map] at hcell
  obtain ⟨r, hrr, rfl⟩ := hcell
  exact ⟨rfl, TextGrid.mem_splitLines s runes hr r hrr, rfl⟩

/-- Claim C10 witness: `setText "h"` over two different previous buffers,
checked on its single cell. -/
theorem c10_setText_fresh_witness :
    ({ rune := 'h', style := none } : TextGrid.Cell).style = none ∧
    ({ rune := 'h', style := none } : TextGrid.Cell).rune ∈ ['h'] ∧
    TextGrid.setText [] ['h'] = TextGrid.setText TextGrid.bufA ['h'] :=
  c10_setText_fresh [] TextGrid.bufA ['h'] [{ rune := 'h', style := none }]
    { rune := 'h', style := none } (by decide) (by decide)
